import Mathlib

/-!
Shallow embedding of the Sonix audio-analysis core.

This file embeds the real-time audio feature-extraction and beat-detection
pipeline of `src/sonix/src/components/Visualizer/AudioVisualizer.ts` — the
classes `ProfessionalAudioAnalyzer`, `AdvancedBeatDetector`, `KickDetector`,
`SnareDetector`, `HihatDetector`, `TempoTracker`, `RhythmAnalyzer`,
`AdvancedVisualEffects` and the driver method
`AudioVisualizer.processAudioData` — and proves/refutes the frozen claims
about it.

Modelling conventions:
* JavaScript numbers are modelled as `ℚ`.  Lean's convention `x / 0 = 0`
  stands in for the `NaN`/`Infinity` that IEEE doubles would produce on the
  (unguarded) zero-denominator paths; whenever a theorem touches such a path
  this is called out next to it.
* `Math.sqrt` is modelled by `sqrtQ` below: exact whenever the argument is
  the square of a rational (every concrete input in this file is chosen so)
  and a floor approximation otherwise.  Every theorem that quantifies over
  arbitrary inputs uses only the nonnegativity of `sqrtQ`, so no result
  depends on the approximate branch.
* `Math.pow` with a fractional exponent (used only inside the snare
  detector's spectral-flatness estimate) is modelled by `jsPow`; no theorem
  depends on its value, only on its computability.
* Calls to `performance.now()` inside the detectors and the tempo tracker
  are modelled as an explicit wall-clock argument (`now`), separate from the
  `currentTime` parameter that the caller passes; `processAudioData` feeds
  the same reading to both, as the source does within one tick.
* `Float32Array`s become `List ℚ`; array `push` followed by a length-capped
  `shift()` becomes `pushCap`.
-/

/-- Floor integer square root, defined by a structurally evaluable counting
formula so that concrete witnesses reduce inside `decide`. -/
def isqrt (n : ℕ) : ℕ :=
  (List.range (n + 1)).countP (fun k => k * k ≤ n) - 1

/-- Rational stand-in for `Math.sqrt`: exact on squares of rationals, floor
approximation otherwise, and `0` on negative arguments.  All general theorems
below use only `sqrtQ_nonneg`. -/
def sqrtQ (q : ℚ) : ℚ :=
  (isqrt q.num.toNat : ℚ) / (isqrt q.den : ℚ)

theorem isqrt_nonneg (n : ℕ) : 0 ≤ (isqrt n : ℚ) := by positivity

theorem sqrtQ_nonneg (q : ℚ) : 0 ≤ sqrtQ q := by
  unfold sqrtQ
  exact div_nonneg (isqrt_nonneg _) (isqrt_nonneg _)

/-- Rational stand-in for `Math.pow` with a fractional exponent (the
m-th root inside the snare detector's spectral-flatness loop).  First-order
approximation; no theorem in this file depends on its value. -/
def jsPow (x e : ℚ) : ℚ :=
  if e = 1 then x else if x < 0 then 0 else 1 + (x - 1) * e

/-- `buf.push(x)` followed by `if (buf.length > cap) buf.shift()`. -/
def pushCap (cap : ℕ) (buf : List ℚ) (x : ℚ) : List ℚ :=
  let b := buf ++ [x]
  if b.length > cap then b.drop 1 else b

/-- `buf.reduce((a, b) => a + b, 0) / buf.length`. -/
def meanQ (l : List ℚ) : ℚ := l.sum / (l.length : ℚ)

/-- `buf.reduce((sum, val) => sum + Math.pow(val - avg, 2), 0) / buf.length`. -/
def varQ (l : List ℚ) : ℚ :=
  (l.map (fun v => (v - meanQ l) ^ 2)).sum / (l.length : ℚ)

/-- Sum of squares of a sample list (the `sum += s[i] * s[i]` loops). -/
def sumSq (l : List ℚ) : ℚ := (l.map (fun x => x * x)).sum

/-- Clamp `x` into `[lo, hi]` (the spec's `clamp(lo, hi, x)`). -/
def clampQ (lo hi x : ℚ) : ℚ := max lo (min hi x)

/-- Ordered insertion, the helper of `sortJS`. -/
def insertSorted (le : ℚ → ℚ → Bool) (x : ℚ) : List ℚ → List ℚ
  | [] => [x]
  | y :: ys => if le x y then x :: y :: ys else y :: insertSorted le x ys

/-- Structurally recursive sort standing in for JS `Array.prototype.sort`
with a comparator (insertion sort; JS does not fix a sorting algorithm, only
the comparator-consistent order of the result). -/
def sortJS (le : ℚ → ℚ → Bool) : List ℚ → List ℚ
  | [] => []
  | x :: xs => insertSorted le x (sortJS le xs)

theorem varQ_nonneg (l : List ℚ) : 0 ≤ varQ l := by
  unfold varQ
  apply div_nonneg _ (by positivity)
  apply List.sum_nonneg
  intro x hx
  obtain ⟨v, _, rfl⟩ := List.mem_map.mp hx
  positivity

/-! ## Data model: `AdvancedAudioFeatures` and `BeatResult` -/

/-- The `AdvancedAudioFeatures` record produced once per analysis tick
(the spec's FeatureVector). -/
structure AdvancedAudioFeatures where
  energy : ℚ
  bassEnergy : ℚ
  subBassEnergy : ℚ
  midEnergy : ℚ
  highMidEnergy : ℚ
  trebleEnergy : ℚ
  presenceEnergy : ℚ
  brillianceEnergy : ℚ
  spectralCentroid : ℚ
  spectralRolloff : ℚ
  spectralFlux : ℚ
  zeroCrossingRate : ℚ
  harmonicContent : ℚ
  percussiveContent : ℚ
  loudness : ℚ
  dynamicRange : ℚ
  onset : Bool
  transient : Bool
  tempo : ℚ
  beat : Bool
  kick : Bool
  snare : Bool
  hihat : Bool
  rhythmStrength : ℚ
  beatConfidence : ℚ


/-- The `BeatResult` record returned by `AdvancedBeatDetector.process`. -/
structure BeatResult where
  beat : Bool
  kick : Bool
  snare : Bool
  hihat : Bool
  confidence : ℚ
  energy : ℚ
  bassEnergy : ℚ


/-! ## `ProfessionalAudioAnalyzer`

State: `previousSpectrum` (for flux) and `spectralFluxBuffer` (≤ 10 entries).
The `windowFunction` field of the source is initialised in the constructor
but never read by any analysis method, so it is not part of the state here. -/

structure AnalyzerState where
  previousSpectrum : List ℚ
  spectralFluxBuffer : List ℚ


/-- A fresh `new ProfessionalAudioAnalyzer()`. -/
def AnalyzerState.fresh : AnalyzerState := ⟨[], []⟩

namespace ProfessionalAudioAnalyzer

/-- `calculateEnergy`: RMS over the whole spectrum.  For an empty spectrum
the source divides by `spectrum.length = 0` with no guard (NaN in JS). -/
def calculateEnergy (spectrum : List ℚ) : ℚ :=
  sqrtQ (sumSq spectrum / (spectrum.length : ℚ))

/-- `calculateBandEnergy`: RMS over bins `[startBin, min(endBin, length))`,
divided by `min(endBin, length) - startBin` (which the source does not clip
at zero). -/
def calculateBandEnergy (spectrum : List ℚ) (startBin endBin : ℕ) : ℚ :=
  let bins : ℚ := (min endBin spectrum.length : ℚ) - (startBin : ℚ)
  sqrtQ (sumSq ((spectrum.drop startBin).take (min endBin spectrum.length - startBin)) / bins)

/-- `calculateSpectralCentroid`: bin-index-weighted mean magnitude, normalised
by the spectrum length; `0` when the magnitude sum is not positive. -/
def calculateSpectralCentroid (spectrum : List ℚ) : ℚ :=
  let weightedSum := (spectrum.enum.map (fun p => (p.1 : ℚ) * p.2)).sum
  let magnitudeSum := spectrum.sum
  if magnitudeSum > 0 then weightedSum / magnitudeSum / (spectrum.length : ℚ) else 0

/-- The scan loop of `calculateSpectralRolloff`: first index whose cumulative
squared energy reaches the threshold, as a fraction of `len`; `1` if the scan
exhausts the list (in particular for an empty spectrum). -/
def rolloffLoop (thr : ℚ) (len : ℕ) : List ℚ → ℕ → ℚ → ℚ
  | [], _, _ => 1
  | x :: rest, i, cum =>
      let cum' := cum + x * x
      if cum' ≥ thr then (i : ℚ) / (len : ℚ) else rolloffLoop thr len rest (i + 1) cum'

/-- `calculateSpectralRolloff` with the default `threshold = 0.85`. -/
def calculateSpectralRolloff (spectrum : List ℚ) : ℚ :=
  rolloffLoop (sumSq spectrum * 0.85) spectrum.length spectrum 0 0

/-- `calculateSpectralFlux`: rectified frame-to-frame increase.  Resets (and
returns 0) when the stored previous spectrum has a different length; always
stores the current spectrum and, on the non-reset path, pushes the flux into
the ≤ 10-entry smoothing buffer. -/
def calculateSpectralFlux (st : AnalyzerState) (spectrum : List ℚ) : ℚ × AnalyzerState :=
  if st.previousSpectrum.length ≠ spectrum.length then
    (0, { st with previousSpectrum := spectrum })
  else
    let flux := (List.zipWith (fun cur prev => if cur - prev > 0 then cur - prev else 0)
      spectrum st.previousSpectrum).sum
    (flux, { previousSpectrum := spectrum,
             spectralFluxBuffer := pushCap 10 st.spectralFluxBuffer flux })

/-- `calculateZeroCrossingRate`: fraction of sign changes between adjacent
time samples (`(t[i] >= 0) !== (t[i-1] >= 0)`); divides by the length with
no guard. -/
def calculateZeroCrossingRate (timeData : List ℚ) : ℚ :=
  (((timeData.zip timeData.tail).countP
    (fun p => !(decide (0 ≤ p.1) == decide (0 ≤ p.2)))) : ℚ) / (timeData.length : ℚ)

/-- `calculateHarmonicContent`: magnitudes at bins `4·h` for harmonics
`h = 2..8` that are in range, divided by the full-spectrum energy. -/
def calculateHarmonicContent (spectrum : List ℚ) : ℚ :=
  let harmonicEnergy := ((List.range' 2 7).map
    (fun h => if 4 * h < spectrum.length then spectrum.getD (4 * h) 0 else 0)).sum
  harmonicEnergy / calculateEnergy spectrum

/-- `calculatePercussiveContent`: count of interior local peaks above `0.1`,
divided by the length. -/
def calculatePercussiveContent (timeData : List ℚ) : ℚ :=
  (((timeData.zip ((timeData.drop 1).zip (timeData.drop 2))).countP
    (fun p => decide (|p.2.1| > 0.1) && decide (|p.2.1| > |p.1|) && decide (|p.2.1| > |p.2.2|))) : ℚ)
    / (timeData.length : ℚ)

/-- `aWeightingResponse`: the simplified A-weighting transfer function. -/
def aWeightingResponse (freq : ℚ) : ℚ :=
  let f2 := freq * freq
  let f4 := f2 * f2
  let numerator := 12194 * 12194 * f4
  let denominator := (f2 + 20.6 * 20.6) * (f2 + 107.7 * 107.7) *
    (f2 + 737.9 * 737.9) * (f2 + 12194 * 12194)
  numerator / denominator

/-- `calculateLoudness`: A-weighted RMS, with the weight of bin `i` taken at
frequency `(i / length) · 22050`. -/
def calculateLoudness (spectrum : List ℚ) : ℚ :=
  let weightedSum := (spectrum.enum.map
    (fun p => p.2 * p.2 * aWeightingResponse (((p.1 : ℚ) / (spectrum.length : ℚ)) * 22050))).sum
  sqrtQ (weightedSum / (spectrum.length : ℚ))

/-- `calculateDynamicRange`: difference between the 95th and 5th percentile of
the descending-sorted spectrum (out-of-range reads default to `0`, where the
JS source would read `undefined` and produce NaN on an empty spectrum). -/
def calculateDynamicRange (spectrum : List ℚ) : ℚ :=
  let sorted := sortJS (fun a b => decide (b ≤ a)) spectrum
  let p95 := sorted.getD (((spectrum.length : ℚ) * 0.05).floor.toNat) 0
  let p5 := sorted.getD (((spectrum.length : ℚ) * 0.95).floor.toNat) 0
  p95 - p5

/-- `detectOnset`: compares a freshly recomputed flux against `1.5×` the mean
of the smoothing buffer and the absolute floor `0.1`.  Note that it calls
`calculateSpectralFlux` itself, mutating the analyzer state a second time
within the tick. -/
def detectOnset (st : AnalyzerState) (spectrum : List ℚ) : Bool × AnalyzerState :=
  let avgFlux := st.spectralFluxBuffer.sum / (max st.spectralFluxBuffer.length 1 : ℚ)
  let res := calculateSpectralFlux st spectrum
  (decide (res.1 > avgFlux * 1.5) && decide (res.1 > 0.1), res.2)

/-- `detectTransient`: largest adjacent amplitude change exceeds `0.3`. -/
def detectTransient (timeData : List ℚ) : Bool :=
  let maxChange := ((timeData.zip timeData.tail).map (fun p => |p.2 - p.1|)).foldl max 0
  decide (maxChange > 0.3)

/-- `ProfessionalAudioAnalyzer.analyze`.  The record fields are computed in
the source's object-literal order; in particular `spectralFlux` updates the
flux state before `onset` reads (and updates) it again.  The trailing fields
(`tempo`, `beat`, …) are the placeholders the source fills in later. -/
def analyze (st : AnalyzerState) (frequencyData timeData : List ℚ) (currentTime : ℚ) :
    AdvancedAudioFeatures × AnalyzerState :=
  let fluxRes := calculateSpectralFlux st frequencyData
  let onsetRes := detectOnset fluxRes.2 frequencyData
  (AdvancedAudioFeatures.mk
    (calculateEnergy frequencyData)
    (calculateBandEnergy frequencyData 0 8)
    (calculateBandEnergy frequencyData 0 4)
    (calculateBandEnergy frequencyData 8 32)
    (calculateBandEnergy frequencyData 32 64)
    (calculateBandEnergy frequencyData 64 128)
    (calculateBandEnergy frequencyData 128 256)
    (calculateBandEnergy frequencyData 256 512)
    (calculateSpectralCentroid frequencyData)
    (calculateSpectralRolloff frequencyData)
    fluxRes.1
    (calculateZeroCrossingRate timeData)
    (calculateHarmonicContent frequencyData)
    (calculatePercussiveContent timeData)
    (calculateLoudness frequencyData)
    (calculateDynamicRange frequencyData)
    onsetRes.1
    (detectTransient timeData)
    0 false false false false 0 0,
   onsetRes.2)

end ProfessionalAudioAnalyzer

/-! ## Drum sub-detectors

Each `detect` reads `performance.now()` internally; that reading is the
explicit `now` argument here. -/

structure KickState where
  kickHistory : List ℚ
  lastKickTime : ℚ


def KickState.fresh : KickState := ⟨[], 0⟩

namespace KickDetector

/-- The instance field `kickThreshold = 0.8` (never reassigned). -/
def kickThreshold : ℚ := 0.8

/-- `calculateSubBassEnergy`: RMS over bins `1 .. min(8, length) - 1`
(skipping the DC bin), divided by `subBassRange - 1`. -/
def calculateSubBassEnergy (spectrum : List ℚ) : ℚ :=
  let subBassRange := min 8 spectrum.length
  sqrtQ (sumSq ((spectrum.drop 1).take (subBassRange - 1)) / ((subBassRange : ℚ) - 1))

/-- `KickDetector.detect`: sub-bass energy against `1.4×` its own ≤ 10-sample
rolling average, gated by the fixed bass floor and a 200 ms refractory on the
wall clock. -/
def detect (st : KickState) (spectrum : List ℚ) (bassEnergy : ℚ) (now : ℚ) :
    Bool × KickState :=
  let subBassEnergy := calculateSubBassEnergy spectrum
  let hist := pushCap 10 st.kickHistory subBassEnergy
  let avgKickEnergy := hist.sum / (hist.length : ℚ)
  let isKick := decide (subBassEnergy > avgKickEnergy * 1.4) &&
    decide (bassEnergy > kickThreshold) && decide (now - st.lastKickTime > 200)
  (isKick, { kickHistory := hist,
             lastKickTime := if isKick then now else st.lastKickTime })

end KickDetector

structure SnareState where
  snareHistory : List ℚ
  lastSnareTime : ℚ


def SnareState.fresh : SnareState := ⟨[], 0⟩

namespace SnareDetector

/-- `calculateMidEnergy`: RMS over the `[0.1·len, 0.3·len)` slice, divided by
`end - start` (not clipped at the actual bin count). -/
def calculateMidEnergy (spectrum : List ℚ) : ℚ :=
  let start := (((spectrum.length : ℚ) * 0.1)).floor.toNat
  let stop := (((spectrum.length : ℚ) * 0.3)).floor.toNat
  sqrtQ (sumSq ((spectrum.drop start).take (min stop spectrum.length - start))
    / ((stop : ℚ) - (start : ℚ)))

/-- `calculateHighMidEnergy`: RMS over the `[0.3·len, 0.6·len)` slice. -/
def calculateHighMidEnergy (spectrum : List ℚ) : ℚ :=
  let start := (((spectrum.length : ℚ) * 0.3)).floor.toNat
  let stop := (((spectrum.length : ℚ) * 0.6)).floor.toNat
  sqrtQ (sumSq ((spectrum.drop start).take (min stop spectrum.length - start))
    / ((stop : ℚ) - (start : ℚ)))

/-- `calculateNoiseComponent`: spectral flatness (geometric over arithmetic
mean) of the bins above `0.001` in the `[0.2·len, 0.8·len)` slice; `0` when no
bin qualifies. -/
def calculateNoiseComponent (spectrum : List ℚ) : ℚ :=
  let start := (((spectrum.length : ℚ) * 0.2)).floor.toNat
  let stop := (((spectrum.length : ℚ) * 0.8)).floor.toNat
  let slice := (spectrum.drop start).take (min stop spectrum.length - start)
  let acc := slice.foldl
    (fun (acc : ℚ × ℚ × ℕ) x =>
      if x > 0.001 then
        (acc.1 * jsPow x (1 / ((stop : ℚ) - (start : ℚ))), acc.2.1 + x, acc.2.2 + 1)
      else acc)
    (1, 0, 0)
  let arithmeticMean := acc.2.1 / (acc.2.2 : ℚ)
  if acc.2.2 > 0 then acc.1 / arithmeticMean else 0

/-- `SnareDetector.detect`: (mid + high-mid) energy times the noise factor
against `1.6×` its ≤ 8-sample rolling average, with a 180 ms refractory. -/
def detect (st : SnareState) (spectrum : List ℚ) (now : ℚ) : Bool × SnareState :=
  let snareCharacteristic :=
    (calculateMidEnergy spectrum + calculateHighMidEnergy spectrum) *
      calculateNoiseComponent spectrum
  let hist := pushCap 8 st.snareHistory snareCharacteristic
  let avgSnareEnergy := hist.sum / (hist.length : ℚ)
  let isSnare := decide (snareCharacteristic > avgSnareEnergy * 1.6) &&
    decide (now - st.lastSnareTime > 180)
  (isSnare, { snareHistory := hist,
              lastSnareTime := if isSnare then now else st.lastSnareTime })

end SnareDetector

structure HihatState where
  hihatHistory : List ℚ
  lastHihatTime : ℚ


def HihatState.fresh : HihatState := ⟨[], 0⟩

namespace HihatDetector

/-- `calculateHighFreqEnergy`: RMS over the `[0.6·len, len)` slice. -/
def calculateHighFreqEnergy (spectrum : List ℚ) : ℚ :=
  let start := (((spectrum.length : ℚ) * 0.6)).floor.toNat
  sqrtQ (sumSq (spectrum.drop start) / ((spectrum.length : ℚ) - (start : ℚ)))

/-- `calculateBrillianceEnergy`: RMS over the `[0.8·len, len)` slice. -/
def calculateBrillianceEnergy (spectrum : List ℚ) : ℚ :=
  let start := (((spectrum.length : ℚ) * 0.8)).floor.toNat
  sqrtQ (sumSq (spectrum.drop start) / ((spectrum.length : ℚ) - (start : ℚ)))

/-- `HihatDetector.detect`: high-frequency plus `1.5×` brilliance energy
against `1.8×` its ≤ 6-sample rolling average, with a 120 ms refractory. -/
def detect (st : HihatState) (spectrum : List ℚ) (now : ℚ) : Bool × HihatState :=
  let hihatCharacteristic :=
    calculateHighFreqEnergy spectrum + calculateBrillianceEnergy spectrum * 1.5
  let hist := pushCap 6 st.hihatHistory hihatCharacteristic
  let avgHihatEnergy := hist.sum / (hist.length : ℚ)
  let isHihat := decide (hihatCharacteristic > avgHihatEnergy * 1.8) &&
    decide (now - st.lastHihatTime > 120)
  (isHihat, { hihatHistory := hist,
              lastHihatTime := if isHihat then now else st.lastHihatTime })

end HihatDetector

/-! ## `AdvancedBeatDetector` -/

structure BDState where
  energyBuffer : List ℚ
  bassBuffer : List ℚ
  kickState : KickState
  snareState : SnareState
  hihatState : HihatState
  lastBeatTime : ℚ
  /-- Sensitivity bias; initialised to `1.3`, only written by
  `setSensitivity` and never read by `process`. -/
  beatThreshold : ℚ
  /-- Recomputed from the energy buffer at the start of each `process` call
  before being read. -/
  adaptiveThreshold : ℚ


/-- A fresh `new AdvancedBeatDetector()`. -/
def BDState.fresh : BDState :=
  ⟨[], [], KickState.fresh, SnareState.fresh, HihatState.fresh, 0, 1.3, 1.3⟩

namespace AdvancedBeatDetector

/-- The instance field `minBeatInterval = 250`. -/
def minBeatInterval : ℚ := 250

/-- `calculateBassEnergy`: RMS over the lowest `min(16, length)` bins. -/
def calculateBassEnergy (spectrum : List ℚ) : ℚ :=
  let bassRange := min 16 spectrum.length
  sqrtQ (sumSq (spectrum.take bassRange) / (bassRange : ℚ))

/-- `calculateTotalEnergy`: RMS over the whole spectrum. -/
def calculateTotalEnergy (spectrum : List ℚ) : ℚ :=
  sqrtQ (sumSq spectrum / (spectrum.length : ℚ))

/-- The energy buffer after this tick's push (capacity 43). -/
def postEnergyBuffer (st : BDState) (spectrum : List ℚ) : List ℚ :=
  pushCap 43 st.energyBuffer (calculateTotalEnergy spectrum)

/-- `avgEnergy` as computed by `process` this tick. -/
def postAvgEnergy (st : BDState) (spectrum : List ℚ) : ℚ :=
  meanQ (postEnergyBuffer st spectrum)

/-- `this.adaptiveThreshold = 1.2 + Math.min(0.5, variance * 2)` as computed
by `process` this tick. -/
def postAdaptiveThreshold (st : BDState) (spectrum : List ℚ) : ℚ :=
  1.2 + min 0.5 (varQ (postEnergyBuffer st spectrum) * 2)

/-- `AdvancedBeatDetector.process`.  `currentTime` is the caller-supplied
timestamp (used by the global beat's refractory); `now` is the
`performance.now()` reading the three drum detectors take this tick. -/
def process (st : BDState) (spectrum : List ℚ) (currentTime : ℚ) (now : ℚ) :
    BeatResult × BDState :=
  let bassEnergy := calculateBassEnergy spectrum
  let totalEnergy := calculateTotalEnergy spectrum
  let eb := postEnergyBuffer st spectrum
  let bb := pushCap 43 st.bassBuffer bassEnergy
  let avgEnergy := meanQ eb
  let adaptive := postAdaptiveThreshold st spectrum
  let isBeat := decide (totalEnergy > adaptive * avgEnergy) &&
    decide (currentTime - st.lastBeatTime > minBeatInterval)
  let confidence :=
    if isBeat = true then min 1 ((totalEnergy / (avgEnergy * adaptive) - 1) * 2) else 0
  let kickRes := KickDetector.detect st.kickState spectrum bassEnergy now
  let snareRes := SnareDetector.detect st.snareState spectrum now
  let hihatRes := HihatDetector.detect st.hihatState spectrum now
  (⟨isBeat, kickRes.1, snareRes.1, hihatRes.1, confidence, totalEnergy, bassEnergy⟩,
   { energyBuffer := eb, bassBuffer := bb,
     kickState := kickRes.2, snareState := snareRes.2, hihatState := hihatRes.2,
     lastBeatTime := if isBeat = true then currentTime else st.lastBeatTime,
     beatThreshold := st.beatThreshold,
     adaptiveThreshold := adaptive })

end AdvancedBeatDetector

/-- Run `AdvancedBeatDetector.process` over a list of ticks
`(spectrum, currentTime, now)`, collecting the per-tick results. -/
def runProcess : BDState → List (List ℚ × ℚ × ℚ) → List BeatResult × BDState
  | st, [] => ([], st)
  | st, (s, t, now) :: rest =>
      let r := AdvancedBeatDetector.process st s t now
      let rs := runProcess r.2 rest
      (r.1 :: rs.1, rs.2)

/-! ## `TempoTracker`

`update` reads `performance.now()` on each detected beat; that reading is the
explicit `now` argument. -/

structure TTState where
  beatIntervals : List ℚ
  lastBeatTime : ℚ
  currentTempo : ℚ
  tempoBuffer : List ℚ
  confidence : ℚ


/-- A fresh `new TempoTracker()`. -/
def TTState.fresh : TTState := ⟨[], 0, 0, [], 0⟩

namespace TempoTracker

/-- `calculateTempo`, reading the (already updated) interval history and
mutating the ≤ 8-entry tempo smoothing buffer: `0` below 4 intervals,
otherwise the moving average of `60000 / median`. -/
def calculateTempo (intervals : List ℚ) (tempoBuffer : List ℚ) : ℚ × List ℚ :=
  if intervals.length < 4 then (0, tempoBuffer)
  else
    let sortedIntervals := sortJS (fun a b => decide (a ≤ b)) intervals
    let medianInterval := sortedIntervals.getD (sortedIntervals.length / 2) 0
    let tempo := 60000 / medianInterval
    let buf := pushCap 8 tempoBuffer tempo
    (meanQ buf, buf)

/-- `calculateTempoConfidence`: `max(0, 1 - stddev/mean)` of the interval
history, `0` below 4 intervals. -/
def calculateTempoConfidence (intervals : List ℚ) : ℚ :=
  if intervals.length < 4 then 0
  else
    let avgInterval := meanQ intervals
    let stdDev := sqrtQ (varQ intervals)
    max 0 (1 - stdDev / avgInterval)

/-- `TempoTracker.update`.  On a detected beat it computes the inter-beat
interval from the previous `performance.now()` reading, accepts it only when
the implied BPM lies in `[60, 200]`, and returns the (possibly updated)
`currentTempo`. -/
def update (st : TTState) (beatResult : BeatResult) (now : ℚ) : ℚ × TTState :=
  if beatResult.beat = true then
    if st.lastBeatTime > 0 then
      if 60000 / (now - st.lastBeatTime) ≥ 60 ∧ 60000 / (now - st.lastBeatTime) ≤ 200 then
        let intervals := pushCap 16 st.beatIntervals (now - st.lastBeatTime)
        let tempoRes := calculateTempo intervals st.tempoBuffer
        let st' : TTState :=
          { beatIntervals := intervals, lastBeatTime := now,
            currentTempo := tempoRes.1, tempoBuffer := tempoRes.2,
            confidence := calculateTempoConfidence intervals }
        (st'.currentTempo, st')
      else (st.currentTempo, { st with lastBeatTime := now })
    else (st.currentTempo, { st with lastBeatTime := now })
  else (st.currentTempo, st)

end TempoTracker

/-- Run `TempoTracker.update` over a list of ticks `(beatResult, now)`,
collecting the returned tempo values. -/
def runTempo : TTState → List (BeatResult × ℚ) → List ℚ × TTState
  | st, [] => ([], st)
  | st, (br, now) :: rest =>
      let r := TempoTracker.update st br now
      let rs := runTempo r.2 rest
      (r.1 :: rs.1, rs.2)

/-! ## `RhythmAnalyzer` -/

structure RAState where
  rhythmPattern : List ℚ
  beatCounter : ℕ


/-- A fresh `new RhythmAnalyzer()`. -/
def RAState.fresh : RAState := ⟨[], 0⟩

namespace RhythmAnalyzer

/-- The instance field `patternLength = 16`. -/
def patternLength : ℕ := 16

/-- `calculateEnergy` (same RMS formula as the analyzer's). -/
def calculateEnergy (spectrum : List ℚ) : ℚ :=
  sqrtQ (sumSq spectrum / (spectrum.length : ℚ))

/-- `calculateRhythmStrength`: maximum autocorrelation over lags
`1 .. patternLength/2 - 1`, divided by the pattern length. -/
def calculateRhythmStrength (pattern : List ℚ) : ℚ :=
  let correlationAt := fun (lag : ℕ) =>
    ((pattern.zip (pattern.drop lag)).map (fun p => p.1 * p.2)).sum
  (((List.range' 1 (patternLength / 2 - 1)).map correlationAt).foldl max 0)
    / (patternLength : ℚ)

/-- `RhythmAnalyzer.analyze`: writes the tick's energy at index
`beatCounter % 16` (the JS assignment extends the array by one slot when the
index equals its length, which is the only out-of-range case reachable from a
fresh instance), increments the counter, and reports the rhythm strength once
the pattern is full. -/
def analyze (st : RAState) (spectrum : List ℚ) : ℚ × RAState :=
  let energy := calculateEnergy spectrum
  let idx := st.beatCounter % patternLength
  let pattern :=
    if idx < st.rhythmPattern.length then st.rhythmPattern.set idx energy
    else st.rhythmPattern ++ [energy]
  let st' : RAState := ⟨pattern, st.beatCounter + 1⟩
  if pattern.length ≥ patternLength then (calculateRhythmStrength pattern, st')
  else (0, st')

end RhythmAnalyzer

/-! ## `AdvancedVisualEffects` -/

/-- The exact rational value of the IEEE double `Math.PI`. -/
def piJS : ℚ := 884279719003555 / 281474976710656

structure FXState where
  flashIntensity : ℚ
  pulsePhase : ℚ
  kickPulse : ℚ
  snarePulse : ℚ
  hihatPulse : ℚ
  energyPulse : ℚ
  colorShift : ℚ


/-- A fresh `new AdvancedVisualEffects()` (all fields initialised to 0). -/
def FXState.fresh : FXState := ⟨0, 0, 0, 0, 0, 0, 0⟩

namespace AdvancedVisualEffects

/-- `AdvancedVisualEffects.update`: event-driven pulses with multiplicative
decay (flash 0.85, kick 0.8, snare 0.7, hihat 0.6), a tempo-scaled phase
accumulator wrapped at `2π`, and a centroid-driven colour shift. -/
def update (st : FXState) (audioFeatures : AdvancedAudioFeatures) : FXState :=
  let flashIntensity :=
    if audioFeatures.beat = true then
      min 1 (audioFeatures.energy * audioFeatures.beatConfidence)
    else st.flashIntensity * 0.85
  let kickPulse := if audioFeatures.kick = true then 1 else st.kickPulse * 0.8
  let snarePulse := if audioFeatures.snare = true then 1 else st.snarePulse * 0.7
  let hihatPulse := if audioFeatures.hihat = true then 1 else st.hihatPulse * 0.6
  let tempoMultiplier := if audioFeatures.tempo > 0 then audioFeatures.tempo / 120 else 1
  let phase := st.pulsePhase + 0.1 * tempoMultiplier
  let pulsePhase := if phase > piJS * 2 then phase - piJS * 2 else phase
  { flashIntensity := flashIntensity, pulsePhase := pulsePhase,
    kickPulse := kickPulse, snarePulse := snarePulse, hihatPulse := hihatPulse,
    energyPulse := audioFeatures.energy,
    colorShift := audioFeatures.spectralCentroid * 360 }

end AdvancedVisualEffects

/-- Fold `AdvancedVisualEffects.update` over a list of feature vectors. -/
def runFX (st : FXState) (fs : List AdvancedAudioFeatures) : FXState :=
  fs.foldl AdvancedVisualEffects.update st

/-! ## `AudioVisualizer.processAudioData` -/

/-- An entry of the visualizer's `beatHistory`. -/
structure BeatEvent where
  time : ℚ
  energy : ℚ
  confidence : ℚ
  kind : String


/-- An entry of the visualizer's `onsetHistory`. -/
structure OnsetEvent where
  time : ℚ
  spectralFlux : ℚ
  frequency : ℚ


/-- The visualizer-owned state touched by `processAudioData` (the analysis
pipeline instances, the current feature vector and the history buffers;
rendering-only state such as particles and canvas handles is out of scope). -/
structure VizState where
  audioFeatures : AdvancedAudioFeatures
  analyzer : AnalyzerState
  beatDetector : BDState
  tempoTracker : TTState
  rhythmAnalyzer : RAState
  visualEffects : FXState
  energyHistory : List ℚ
  beatHistory : List BeatEvent
  onsetHistory : List OnsetEvent


/-- `resetAudioFeatures`: the all-zero / all-false feature vector. -/
def zeroFeatures : AdvancedAudioFeatures :=
  ⟨0, 0, 0, 0, 0, 0, 0, 0, 0, 0, 0, 0, 0, 0, 0, 0, false, false, 0,
   false, false, false, false, 0, 0⟩

/-- A fresh `AudioVisualizer` as far as the analysis pipeline is concerned
(the class initialisers set `audioFeatures` to the zero vector and all
buffers empty). -/
def VizState.fresh : VizState :=
  ⟨zeroFeatures, AnalyzerState.fresh, BDState.fresh, TTState.fresh,
   RAState.fresh, FXState.fresh, [], [], []⟩

namespace AudioVisualizer

/-- Push a beat event (capacity 32) or an onset event (capacity 16); JS
`push` plus conditional `shift`. -/
def pushEvents (l : List BeatEvent) (e : BeatEvent) : List BeatEvent :=
  let b := l ++ [e]
  if b.length > 32 then b.drop 1 else b

def pushOnsets (l : List OnsetEvent) (e : OnsetEvent) : List OnsetEvent :=
  let b := l ++ [e]
  if b.length > 16 then b.drop 1 else b

/-- `AudioVisualizer.processAudioData`.  `frequencyData` and `timeData` are
the raw byte buffers; `now` is this tick's `performance.now()` reading (the
source takes several readings within one tick, all modelled as this single
value).  The trailing `triggerAdvancedBeatEffect` / `triggerOnsetEffect` /
`triggerTransientEffect` calls only spawn rendering particles and are out of
scope. -/
def processAudioData (st : VizState) (frequencyData timeData : List ℕ) (now : ℚ) :
    VizState :=
  let floatFreqData := frequencyData.map (fun b => (b : ℚ) / 255)
  let floatTimeData := timeData.map (fun b => ((b : ℚ) - 128) / 128)
  let energyLevel := floatFreqData.sum / (floatFreqData.length : ℚ)
  if energyLevel < 0.001 then
    { st with audioFeatures := zeroFeatures }
  else
    let analyzeRes := ProfessionalAudioAnalyzer.analyze st.analyzer floatFreqData floatTimeData now
    let processRes := AdvancedBeatDetector.process st.beatDetector floatFreqData now now
    let beatResult := processRes.1
    let tempoRes := TempoTracker.update st.tempoTracker beatResult now
    let rhythmRes := RhythmAnalyzer.analyze st.rhythmAnalyzer floatFreqData
    let features :=
      { analyzeRes.1 with
          beat := beatResult.beat, kick := beatResult.kick,
          snare := beatResult.snare, hihat := beatResult.hihat,
          beatConfidence := beatResult.confidence,
          tempo := tempoRes.1, rhythmStrength := rhythmRes.1 }
    let energyHistory : List ℚ :=
      let b : List ℚ := st.energyHistory ++ [features.energy]
      if b.length > 120 then b.drop 1 else b
    let beatHistory :=
      if features.beat = true then
        pushEvents st.beatHistory
          ⟨now, features.energy, features.beatConfidence,
           if features.kick = true then "kick"
           else if features.snare = true then "snare" else "general"⟩
      else st.beatHistory
    let onsetHistory :=
      if features.onset = true then
        pushOnsets st.onsetHistory ⟨now, features.spectralFlux, features.spectralCentroid⟩
      else st.onsetHistory
    { audioFeatures := features,
      analyzer := analyzeRes.2,
      beatDetector := processRes.2,
      tempoTracker := tempoRes.2,
      rhythmAnalyzer := rhythmRes.2,
      visualEffects := AdvancedVisualEffects.update st.visualEffects features,
      energyHistory := energyHistory,
      beatHistory := beatHistory,
      onsetHistory := onsetHistory }

end AudioVisualizer

/-! ## Definitions used by the claim statements -/

/-- The timestamps of the ticks on which the flag `F` of the per-tick
`BeatResult` is `true`, along a `process` run over `(spectrum, currentTime,
now)` ticks. -/
def fireTimes (F : BeatResult → Bool) : BDState → List (List ℚ × ℚ × ℚ) → List ℚ
  | _, [] => []
  | st, (s, t, now) :: rest =>
      let r := AdvancedBeatDetector.process st s t now
      if F r.1 then t :: fireTimes F r.2 rest else fireTimes F r.2 rest

/-- The clock-free projection of a `BeatResult`: the global beat flag, its
confidence and the two energies (everything except the drum flags). -/
def beatProj (r : BeatResult) : Bool × ℚ × ℚ × ℚ :=
  (r.beat, r.confidence, r.energy, r.bassEnergy)

/-- Agreement of two beat-detector states on the components that feed the
global beat flag (the drum sub-detector states are excluded). -/
def mainEq (a b : BDState) : Prop :=
  a.energyBuffer = b.energyBuffer ∧ a.bassBuffer = b.bassBuffer ∧
    a.lastBeatTime = b.lastBeatTime

/-- The tempo-tracker range invariant: the published tempo is `0` or in
`[60, 200]`, every smoothed BPM in the buffer is in `[60, 200]`, and every
accepted inter-beat interval is in `[300, 1000]` ms. -/
def TTInv (st : TTState) : Prop :=
  (st.currentTempo = 0 ∨ (60 ≤ st.currentTempo ∧ st.currentTempo ≤ 200)) ∧
  (∀ x ∈ st.tempoBuffer, 60 ≤ x ∧ x ≤ 200) ∧
  (∀ x ∈ st.beatIntervals, 300 ≤ x ∧ x ≤ 1000)

/-- Modelled from the spec: "Fatal conditions (e.g., mismatched array lengths
between frequency and time buffers) should be treated as a caller contract
violation — reject with a descriptive error rather than silently truncating."
The source's `analyze` contains no such check; this is the checked variant the
spec describes, for comparison. -/
def analyzeChecked (st : AnalyzerState) (frequencyData timeData : List ℚ)
    (currentTime : ℚ) : Except String (AdvancedAudioFeatures × AnalyzerState) :=
  if frequencyData.length ≠ timeData.length then
    Except.error "mismatched array lengths between frequency and time buffers"
  else
    Except.ok (ProfessionalAudioAnalyzer.analyze st frequencyData timeData currentTime)

/-- A feature vector carrying simultaneous beat/kick/snare/hihat events with
`energy × beatConfidence ≥ 1`, used to instantiate the pulse-decay claim. -/
def fWit : AdvancedAudioFeatures :=
  { zeroFeatures with
      beat := true
      kick := true
      snare := true
      hihat := true
      energy := 2
      beatConfidence := 1 }

/- Batteries marks the core rational operations `@[irreducible]`; restoring
their default reducibility lets `decide` evaluate the embedding on the
concrete inputs of the witnesses and counterexamples below. -/
attribute [local semireducible] Rat.mul Rat.add Rat.sub Rat.inv Rat.ofScientific

/-! ## Helper lemmas -/

theorem mem_pushCap (cap : ℕ) (buf : List ℚ) (x y : ℚ) (hy : y ∈ pushCap cap buf x) :
    y ∈ buf ∨ y = x := by
  unfold pushCap at hy
  simp only at hy
  split at hy
  · have := List.mem_of_mem_drop hy
    rcases List.mem_append.mp this with h | h
    · exact Or.inl h
    · exact Or.inr (List.mem_singleton.mp h)
  · rcases List.mem_append.mp hy with h | h
    · exact Or.inl h
    · exact Or.inr (List.mem_singleton.mp h)

theorem self_mem_pushCap (cap : ℕ) (buf : List ℚ) (x : ℚ) (hcap : 1 ≤ cap) :
    x ∈ pushCap cap buf x := by
  unfold pushCap
  simp only
  split
  · rename_i h
    have hlen : 1 ≤ buf.length := by
      simp only [List.length_append, List.length_singleton] at h
      omega
    rw [List.drop_append_of_le_length hlen]
    exact List.mem_append.mpr (Or.inr (List.mem_singleton.mpr rfl))
  · exact List.mem_append.mpr (Or.inr (List.mem_singleton.mpr rfl))

theorem pushCap_ne_nil (cap : ℕ) (buf : List ℚ) (x : ℚ) (hcap : 1 ≤ cap) :
    pushCap cap buf x ≠ [] :=
  fun h => by simpa [h] using self_mem_pushCap cap buf x hcap

/-- The mean of a nonempty list lies between elementwise bounds. -/
theorem meanQ_bounds (l : List ℚ) (lo hi : ℚ) (hne : l ≠ [])
    (h : ∀ x ∈ l, lo ≤ x ∧ x ≤ hi) : lo ≤ meanQ l ∧ meanQ l ≤ hi := by
  have hlen : 0 < (l.length : ℚ) := by
    have := List.length_pos.mpr hne
    exact_mod_cast this
  have hlo : lo * (l.length : ℚ) ≤ l.sum := by
    have := List.card_nsmul_le_sum (l := l) (n := lo) (fun x hx => (h x hx).1)
    simpa [nsmul_eq_mul, mul_comm] using this
  have hhi : l.sum ≤ hi * (l.length : ℚ) := by
    have := List.sum_le_card_nsmul (l := l) (n := hi) (fun x hx => (h x hx).2)
    simpa [nsmul_eq_mul, mul_comm] using this
  constructor
  · rw [meanQ, le_div_iff hlen]
    exact hlo
  · rw [meanQ, div_le_iff hlen]
    exact hhi

theorem meanQ_nonneg (l : List ℚ) (h : ∀ x ∈ l, 0 ≤ x) : 0 ≤ meanQ l := by
  unfold meanQ
  exact div_nonneg (List.sum_nonneg h) (by positivity)

/-- A nonnegative member bounds the mean of a nonnegative list from below
(after division by the length). -/
theorem meanQ_pos_of_mem (l : List ℚ) (x : ℚ) (hx : x ∈ l) (hxpos : 0 < x)
    (h : ∀ y ∈ l, 0 ≤ y) : 0 < meanQ l := by
  have hne : l ≠ [] := List.ne_nil_of_mem hx
  have hlen : 0 < (l.length : ℚ) := by
    have := List.length_pos.mpr hne
    exact_mod_cast this
  have hsum : x ≤ l.sum := List.single_le_sum h x hx
  rw [meanQ]
  exact div_pos (lt_of_lt_of_le hxpos hsum) hlen

/-- Both branches of `calculateSpectralFlux` store the current spectrum as the
new `previousSpectrum`. -/
theorem flux_sets_previous (st : AnalyzerState) (s : List ℚ) :
    (ProfessionalAudioAnalyzer.calculateSpectralFlux st s).2.previousSpectrum = s := by
  unfold ProfessionalAudioAnalyzer.calculateSpectralFlux
  split <;> rfl

/-- Rectified difference of a spectrum against itself sums to zero. -/
theorem zipWith_flux_self (l : List ℚ) :
    (List.zipWith (fun cur prev => if cur - prev > 0 then cur - prev else 0) l l).sum = 0 := by
  induction l with
  | nil => simp
  | cons a l ih => simp [ih]

/-- When the stored previous spectrum already equals the argument (as it does
after the same tick's earlier `calculateSpectralFlux` call), the recomputed
flux is `0`, so `detectOnset` cannot fire. -/
theorem detectOnset_of_matching (st : AnalyzerState) (s : List ℚ)
    (hprev : st.previousSpectrum = s) :
    (ProfessionalAudioAnalyzer.detectOnset st s).1 = false := by
  unfold ProfessionalAudioAnalyzer.detectOnset ProfessionalAudioAnalyzer.calculateSpectralFlux
  rw [hprev]
  simp only [ne_eq, not_true_eq_false, if_neg, ite_false, if_false, not_false_eq_true,
    zipWith_flux_self]
  have h01 : ¬ ((0 : ℚ) > 0.1) := by norm_num
  simp [h01]

/-! ## Refractory step lemmas

Each detector writes its `last…Time` field exactly on a fire, and a fire
requires the refractory gap from the previous write. -/

theorem kick_detect_step (st : KickState) (s : List ℚ) (b now : ℚ) :
    ((KickDetector.detect st s b now).1 = true →
      200 < now - st.lastKickTime ∧ (KickDetector.detect st s b now).2.lastKickTime = now) ∧
    ((KickDetector.detect st s b now).1 = false →
      (KickDetector.detect st s b now).2.lastKickTime = st.lastKickTime) := by
  unfold KickDetector.detect
  simp only
  constructor
  · intro h
    rw [if_pos h]
    refine ⟨?_, rfl⟩
    simp only [Bool.and_eq_true, decide_eq_true_eq] at h
    exact h.2
  · intro h
    rw [if_neg (by simp [h])]

theorem snare_detect_step (st : SnareState) (s : List ℚ) (now : ℚ) :
    ((SnareDetector.detect st s now).1 = true →
      180 < now - st.lastSnareTime ∧ (SnareDetector.detect st s now).2.lastSnareTime = now) ∧
    ((SnareDetector.detect st s now).1 = false →
      (SnareDetector.detect st s now).2.lastSnareTime = st.lastSnareTime) := by
  unfold SnareDetector.detect
  simp only
  constructor
  · intro h
    rw [if_pos h]
    refine ⟨?_, rfl⟩
    simp only [Bool.and_eq_true, decide_eq_true_eq] at h
    exact h.2
  · intro h
    rw [if_neg (by simp [h])]

theorem hihat_detect_step (st : HihatState) (s : List ℚ) (now : ℚ) :
    ((HihatDetector.detect st s now).1 = true →
      120 < now - st.lastHihatTime ∧ (HihatDetector.detect st s now).2.lastHihatTime = now) ∧
    ((HihatDetector.detect st s now).1 = false →
      (HihatDetector.detect st s now).2.lastHihatTime = st.lastHihatTime) := by
  unfold HihatDetector.detect
  simp only
  constructor
  · intro h
    rw [if_pos h]
    refine ⟨?_, rfl⟩
    simp only [Bool.and_eq_true, decide_eq_true_eq] at h
    exact h.2
  · intro h
    rw [if_neg (by simp [h])]

theorem process_beat_step (st : BDState) (s : List ℚ) (t now : ℚ) :
    ((AdvancedBeatDetector.process st s t now).1.beat = true →
      250 < t - st.lastBeatTime ∧
        (AdvancedBeatDetector.process st s t now).2.lastBeatTime = t) ∧
    ((AdvancedBeatDetector.process st s t now).1.beat = false →
      (AdvancedBeatDetector.process st s t now).2.lastBeatTime = st.lastBeatTime) := by
  unfold AdvancedBeatDetector.process
  simp only
  constructor
  · intro h
    rw [if_pos h]
    refine ⟨?_, rfl⟩
    simp only [Bool.and_eq_true, decide_eq_true_eq, AdvancedBeatDetector.minBeatInterval] at h
    exact h.2
  · intro h
    rw [if_neg (by simp [h])]

/-- `process` forwards the kick flag and state verbatim from the kick
sub-detector. -/
theorem process_kick_eq (st : BDState) (s : List ℚ) (t now : ℚ) :
    (AdvancedBeatDetector.process st s t now).1.kick =
      (KickDetector.detect st.kickState s (AdvancedBeatDetector.calculateBassEnergy s) now).1 ∧
    (AdvancedBeatDetector.process st s t now).2.kickState =
      (KickDetector.detect st.kickState s (AdvancedBeatDetector.calculateBassEnergy s) now).2 :=
  ⟨rfl, rfl⟩

theorem process_snare_eq (st : BDState) (s : List ℚ) (t now : ℚ) :
    (AdvancedBeatDetector.process st s t now).1.snare =
      (SnareDetector.detect st.snareState s now).1 ∧
    (AdvancedBeatDetector.process st s t now).2.snareState =
      (SnareDetector.detect st.snareState s now).2 :=
  ⟨rfl, rfl⟩

theorem process_hihat_eq (st : BDState) (s : List ℚ) (t now : ℚ) :
    (AdvancedBeatDetector.process st s t now).1.hihat =
      (HihatDetector.detect st.hihatState s now).1 ∧
    (AdvancedBeatDetector.process st s t now).2.hihatState =
      (HihatDetector.detect st.hihatState s now).2 :=
  ⟨rfl, rfl⟩

/-- Generic refractory argument: if the flag `F` of a `process` tick can only
be `true` when the tick's time exceeds the tracked `L`-component by more than
`W` (and a fire re-stamps `L` while a non-fire leaves it alone), then along
any time-coherent run consecutive fire times are more than `W` apart. -/
theorem fireTimes_chain
    (F : BeatResult → Bool) (L : BDState → ℚ) (W : ℚ)
    (hfire : ∀ st s t now, now = t →
      F (AdvancedBeatDetector.process st s t now).1 = true →
        W < t - L st ∧ L (AdvancedBeatDetector.process st s t now).2 = t)
    (hskip : ∀ st s t now, now = t →
      F (AdvancedBeatDetector.process st s t now).1 = false →
        L (AdvancedBeatDetector.process st s t now).2 = L st) :
    ∀ (inputs : List (List ℚ × ℚ × ℚ)) (st : BDState),
      (∀ i ∈ inputs, i.2.2 = i.2.1) →
      List.Chain' (fun t1 t2 => W < t2 - t1) (fireTimes F st inputs) ∧
      (∀ h ∈ (fireTimes F st inputs).head?, W < h - L st) := by
  intro inputs
  induction inputs with
  | nil =>
      intro st _
      simp [fireTimes]
  | cons p rest ih =>
      obtain ⟨s, t, now⟩ := p
      intro st hcoh
      have hnow : now = t := hcoh (s, t, now) (List.mem_cons_self _ _)
      have hrest : ∀ i ∈ rest, i.2.2 = i.2.1 := fun i hi => hcoh i (List.mem_cons_of_mem _ hi)
      by_cases hf : F (AdvancedBeatDetector.process st s t now).1 = true
      · obtain ⟨hgap, hL⟩ := hfire st s t now hnow hf
        obtain ⟨ihchain, ihhead⟩ := ih (AdvancedBeatDetector.process st s t now).2 hrest
        have hstep : fireTimes F st ((s, t, now) :: rest) =
            t :: fireTimes F (AdvancedBeatDetector.process st s t now).2 rest := by
          simp only [fireTimes, hf, if_true]
        rw [hstep]
        constructor
        · refine List.chain'_cons'.mpr ⟨?_, ihchain⟩
          intro b hb
          have := ihhead b hb
          rw [hL] at this
          linarith
        · intro h hh
          simp only [List.head?_cons, Option.mem_def, Option.some.injEq] at hh
          subst hh
          exact hgap
      · have hf' : F (AdvancedBeatDetector.process st s t now).1 = false :=
          Bool.eq_false_iff.mpr (fun hc => hf hc)
        have hL := hskip st s t now hnow hf'
        obtain ⟨ihchain, ihhead⟩ := ih (AdvancedBeatDetector.process st s t now).2 hrest
        have hstep : fireTimes F st ((s, t, now) :: rest) =
            fireTimes F (AdvancedBeatDetector.process st s t now).2 rest := by
          simp [fireTimes, hf']
        rw [hstep]
        refine ⟨ihchain, ?_⟩
        intro h hh
        have := ihhead h hh
        rw [hL] at this
        exact this

theorem kick_fire_aux (st : BDState) (s : List ℚ) (t now : ℚ) (hnow : now = t)
    (hf : (AdvancedBeatDetector.process st s t now).1.kick = true) :
    200 < t - st.kickState.lastKickTime ∧
      (AdvancedBeatDetector.process st s t now).2.kickState.lastKickTime = t := by
  rw [(process_kick_eq st s t now).1] at hf
  have h := (kick_detect_step st.kickState s (AdvancedBeatDetector.calculateBassEnergy s) now).1 hf
  rw [(process_kick_eq st s t now).2]
  subst hnow
  exact h

theorem kick_skip_aux (st : BDState) (s : List ℚ) (t now : ℚ)
    (hf : (AdvancedBeatDetector.process st s t now).1.kick = false) :
    (AdvancedBeatDetector.process st s t now).2.kickState.lastKickTime =
      st.kickState.lastKickTime := by
  rw [(process_kick_eq st s t now).1] at hf
  rw [(process_kick_eq st s t now).2]
  exact (kick_detect_step st.kickState s (AdvancedBeatDetector.calculateBassEnergy s) now).2 hf

theorem snare_fire_aux (st : BDState) (s : List ℚ) (t now : ℚ) (hnow : now = t)
    (hf : (AdvancedBeatDetector.process st s t now).1.snare = true) :
    180 < t - st.snareState.lastSnareTime ∧
      (AdvancedBeatDetector.process st s t now).2.snareState.lastSnareTime = t := by
  rw [(process_snare_eq st s t now).1] at hf
  have h := (snare_detect_step st.snareState s now).1 hf
  rw [(process_snare_eq st s t now).2]
  subst hnow
  exact h

theorem snare_skip_aux (st : BDState) (s : List ℚ) (t now : ℚ)
    (hf : (AdvancedBeatDetector.process st s t now).1.snare = false) :
    (AdvancedBeatDetector.process st s t now).2.snareState.lastSnareTime =
      st.snareState.lastSnareTime := by
  rw [(process_snare_eq st s t now).1] at hf
  rw [(process_snare_eq st s t now).2]
  exact (snare_detect_step st.snareState s now).2 hf

theorem hihat_fire_aux (st : BDState) (s : List ℚ) (t now : ℚ) (hnow : now = t)
    (hf : (AdvancedBeatDetector.process st s t now).1.hihat = true) :
    120 < t - st.hihatState.lastHihatTime ∧
      (AdvancedBeatDetector.process st s t now).2.hihatState.lastHihatTime = t := by
  rw [(process_hihat_eq st s t now).1] at hf
  have h := (hihat_detect_step st.hihatState s now).1 hf
  rw [(process_hihat_eq st s t now).2]
  subst hnow
  exact h

theorem hihat_skip_aux (st : BDState) (s : List ℚ) (t now : ℚ)
    (hf : (AdvancedBeatDetector.process st s t now).1.hihat = false) :
    (AdvancedBeatDetector.process st s t now).2.hihatState.lastHihatTime =
      st.hihatState.lastHihatTime := by
  rw [(process_hihat_eq st s t now).1] at hf
  rw [(process_hihat_eq st s t now).2]
  exact (hihat_detect_step st.hihatState s now).2 hf

/-- C4: for a run of `AdvancedBeatDetector.process` from fresh instances whose
ticks are time-coherent (each tick's `performance.now()` reading equals its
timestamp, as `processAudioData` arranges) and whose timestamps strictly
increase, any two consecutive `true` detections of the same kind are separated
by at least that kind's refractory window: 250 ms for the global beat flag,
200 ms for kick, 180 ms for snare and 120 ms for hihat (the source enforces
the strict inequality, which implies the claim's `≥`). -/
theorem beat_refractory_invariant (inputs : List (List ℚ × ℚ × ℚ))
    (hcoh : ∀ i ∈ inputs, i.2.2 = i.2.1)
    (hmono : List.Chain' (fun t1 t2 => t1 < t2) (inputs.map (fun i => i.2.1))) :
    List.Chain' (fun t1 t2 => 250 ≤ t2 - t1)
        (fireTimes (fun r => r.beat) BDState.fresh inputs) ∧
      List.Chain' (fun t1 t2 => 200 ≤ t2 - t1)
        (fireTimes (fun r => r.kick) BDState.fresh inputs) ∧
      List.Chain' (fun t1 t2 => 180 ≤ t2 - t1)
        (fireTimes (fun r => r.snare) BDState.fresh inputs) ∧
      List.Chain' (fun t1 t2 => 120 ≤ t2 - t1)
        (fireTimes (fun r => r.hihat) BDState.fresh inputs) := by
  refine ⟨?_, ?_, ?_, ?_⟩
  · exact ((fireTimes_chain (fun r => r.beat) (fun st => st.lastBeatTime) 250
      (fun st s t now _ hf => (process_beat_step st s t now).1 hf)
      (fun st s t now _ hf => (process_beat_step st s t now).2 hf)
      inputs BDState.fresh hcoh).1).imp (fun a b h => le_of_lt h)
  · exact ((fireTimes_chain (fun r => r.kick) (fun st => st.kickState.lastKickTime) 200
      (fun st s t now hnow hf => kick_fire_aux st s t now hnow hf)
      (fun st s t now _ hf => kick_skip_aux st s t now hf)
      inputs BDState.fresh hcoh).1).imp (fun a b h => le_of_lt h)
  · exact ((fireTimes_chain (fun r => r.snare) (fun st => st.snareState.lastSnareTime) 180
      (fun st s t now hnow hf => snare_fire_aux st s t now hnow hf)
      (fun st s t now _ hf => snare_skip_aux st s t now hf)
      inputs BDState.fresh hcoh).1).imp (fun a b h => le_of_lt h)
  · exact ((fireTimes_chain (fun r => r.hihat) (fun st => st.hihatState.lastHihatTime) 120
      (fun st s t now hnow hf => hihat_fire_aux st s t now hnow hf)
      (fun st s t now _ hf => hihat_skip_aux st s t now hf)
      inputs BDState.fresh hcoh).1).imp (fun a b h => le_of_lt h)

/-- A concrete time-coherent two-tick run with strictly increasing
timestamps, used to instantiate the refractory theorem. -/
def refractoryWitnessInputs : List (List ℚ × ℚ × ℚ) :=
  [(List.replicate 4 0, 10, 10), (List.replicate 4 1, 300, 300)]

/-- Witness for C4 at a concrete run. -/
theorem beat_refractory_invariant_witness :
    ((∀ i ∈ refractoryWitnessInputs, i.2.2 = i.2.1) ∧
      List.Chain' (fun t1 t2 => t1 < t2) (refractoryWitnessInputs.map (fun i => i.2.1))) ∧
    (List.Chain' (fun t1 t2 => 250 ≤ t2 - t1)
        (fireTimes (fun r => r.beat) BDState.fresh refractoryWitnessInputs) ∧
      List.Chain' (fun t1 t2 => 200 ≤ t2 - t1)
        (fireTimes (fun r => r.kick) BDState.fresh refractoryWitnessInputs) ∧
      List.Chain' (fun t1 t2 => 180 ≤ t2 - t1)
        (fireTimes (fun r => r.snare) BDState.fresh refractoryWitnessInputs) ∧
      List.Chain' (fun t1 t2 => 120 ≤ t2 - t1)
        (fireTimes (fun r => r.hihat) BDState.fresh refractoryWitnessInputs)) :=
  ⟨⟨by decide, by
      simp only [refractoryWitnessInputs, List.map_cons, List.map_nil]
      exact List.chain'_cons.mpr ⟨by norm_num, List.chain'_singleton _⟩⟩,
   beat_refractory_invariant refractoryWitnessInputs (by decide) (by
      simp only [refractoryWitnessInputs, List.map_cons, List.map_nil]
      exact List.chain'_cons.mpr ⟨by norm_num, List.chain'_singleton _⟩)⟩

theorem mem_insertSorted (le : ℚ → ℚ → Bool) (a x : ℚ) :
    ∀ l : List ℚ, a ∈ insertSorted le x l ↔ a = x ∨ a ∈ l := by
  intro l
  induction l with
  | nil => simp [insertSorted]
  | cons y ys ih =>
      simp only [insertSorted]
      split
      · simp [List.mem_cons]
      · simp only [List.mem_cons, ih]
        tauto

theorem mem_sortJS (le : ℚ → ℚ → Bool) (a : ℚ) :
    ∀ l : List ℚ, a ∈ sortJS le l ↔ a ∈ l := by
  intro l
  induction l with
  | nil => simp [sortJS]
  | cons x xs ih =>
      simp only [sortJS, mem_insertSorted, List.mem_cons, ih]

theorem length_insertSorted (le : ℚ → ℚ → Bool) (x : ℚ) :
    ∀ l : List ℚ, (insertSorted le x l).length = l.length + 1 := by
  intro l
  induction l with
  | nil => simp [insertSorted]
  | cons y ys ih =>
      simp only [insertSorted]
      split
      · simp
      · simp [ih]

theorem length_sortJS (le : ℚ → ℚ → Bool) :
    ∀ l : List ℚ, (sortJS le l).length = l.length := by
  intro l
  induction l with
  | nil => rfl
  | cons x xs ih => simp [sortJS, length_insertSorted, ih]

/-! ## Tempo-range lemmas -/

theorem calculateTempo_range (intervals buf : List ℚ)
    (hint : ∀ x ∈ intervals, 300 ≤ x ∧ x ≤ 1000)
    (hbuf : ∀ x ∈ buf, 60 ≤ x ∧ x ≤ 200) :
    ((TempoTracker.calculateTempo intervals buf).1 = 0 ∨
      (60 ≤ (TempoTracker.calculateTempo intervals buf).1 ∧
        (TempoTracker.calculateTempo intervals buf).1 ≤ 200)) ∧
    (∀ x ∈ (TempoTracker.calculateTempo intervals buf).2, 60 ≤ x ∧ x ≤ 200) := by
  unfold TempoTracker.calculateTempo
  split
  · exact ⟨Or.inl rfl, hbuf⟩
  · rename_i hlen
    simp only
    set sorted := sortJS (fun a b => decide (a ≤ b)) intervals with hsorted
    have hlensort : sorted.length = intervals.length := by
      rw [hsorted]
      exact length_sortJS _ intervals
    have hpos : 0 < intervals.length := by omega
    have hidx : sorted.length / 2 < sorted.length := by
      rw [hlensort]
      exact Nat.div_lt_self hpos (by norm_num)
    have hmedmem : sorted.getD (sorted.length / 2) 0 ∈ intervals := by
      rw [List.getD_eq_getElem?_getD, List.getElem?_eq_getElem hidx, Option.getD_some]
      exact (mem_sortJS _ _ intervals).mp (List.getElem_mem hidx)
    obtain ⟨hm1, hm2⟩ := hint _ hmedmem
    set m := sorted.getD (sorted.length / 2) 0
    have hmpos : 0 < m := by linarith
    have htlo : (60 : ℚ) ≤ 60000 / m := by
      rw [le_div_iff₀ hmpos]
      linarith
    have hthi : (60000 : ℚ) / m ≤ 200 := by
      rw [div_le_iff₀ hmpos]
      linarith
    have hbuf' : ∀ x ∈ pushCap 8 buf (60000 / m), 60 ≤ x ∧ x ≤ 200 := by
      intro x hx
      rcases mem_pushCap 8 buf _ x hx with h | h
      · exact hbuf x h
      · subst h
        exact ⟨htlo, hthi⟩
    refine ⟨Or.inr ?_, hbuf'⟩
    exact meanQ_bounds _ 60 200 (pushCap_ne_nil 8 buf _ (by norm_num)) hbuf'

theorem tempo_update_step (st : TTState) (br : BeatResult) (now : ℚ) (hinv : TTInv st) :
    TTInv (TempoTracker.update st br now).2 ∧
      (TempoTracker.update st br now).1 =
        (TempoTracker.update st br now).2.currentTempo := by
  unfold TempoTracker.update
  split
  · split
    · split
      · rename_i hbpm
        set interval := now - st.lastBeatTime with hintdef
        have hipos : 0 < interval := by
          rcases lt_trichotomy interval 0 with h | h | h
          · have : (60000 : ℚ) / interval < 0 := div_neg_of_pos_of_neg (by norm_num) h
            linarith [hbpm.1]
          · exfalso
            rw [h, div_zero] at hbpm
            linarith [hbpm.1]
          · exact h
        have hub : interval ≤ 1000 := by
          have h1 := hbpm.1
          rw [ge_iff_le, le_div_iff₀ hipos] at h1
          linarith
        have hlb : 300 ≤ interval := by
          have h2 := hbpm.2
          rw [div_le_iff₀ hipos] at h2
          linarith
        have hint' : ∀ x ∈ pushCap 16 st.beatIntervals interval, 300 ≤ x ∧ x ≤ 1000 := by
          intro x hx
          rcases mem_pushCap 16 st.beatIntervals interval x hx with h | h
          · exact hinv.2.2 x h
          · subst h
            exact ⟨hlb, hub⟩
        obtain ⟨hct, hbuf⟩ := calculateTempo_range (pushCap 16 st.beatIntervals interval)
          st.tempoBuffer hint' hinv.2.1
        exact ⟨⟨hct, hbuf, hint'⟩, rfl⟩
      · exact ⟨⟨hinv.1, hinv.2.1, hinv.2.2⟩, rfl⟩
    · exact ⟨⟨hinv.1, hinv.2.1, hinv.2.2⟩, rfl⟩
  · exact ⟨hinv, rfl⟩

theorem runTempo_inv (inputs : List (BeatResult × ℚ)) :
    ∀ st : TTState, TTInv st →
      (∀ v ∈ (runTempo st inputs).1, v = 0 ∨ (60 ≤ v ∧ v ≤ 200)) ∧
        TTInv (runTempo st inputs).2 := by
  induction inputs with
  | nil =>
      intro st hinv
      exact ⟨by simp [runTempo], hinv⟩
  | cons p rest ih =>
      obtain ⟨br, now⟩ := p
      intro st hinv
      obtain ⟨hpost, hout⟩ := tempo_update_step st br now hinv
      obtain ⟨ihout, ihinv⟩ := ih (TempoTracker.update st br now).2 hpost
      refine ⟨?_, by simpa [runTempo] using ihinv⟩
      intro v hv
      simp only [runTempo, List.mem_cons] at hv
      rcases hv with hv | hv
      · subst hv
        rw [hout]
        exact hpost.1
      · exact ihout v hv

/-- C5: every tempo value returned along any `TempoTracker.update` run from a
fresh tracker is either `0` (no-data state) or lies in `[60, 200]` BPM: only
intervals implying 60–200 BPM enter the history, BPM is `60000 / median`, and
the output is an at-most-8-sample moving average of such BPM values. -/
theorem tempo_output_range (inputs : List (BeatResult × ℚ)) :
    ∀ v ∈ (runTempo TTState.fresh inputs).1, v = 0 ∨ (60 ≤ v ∧ v ≤ 200) :=
  (runTempo_inv inputs TTState.fresh ⟨Or.inl rfl, by simp [TTState.fresh], by simp [TTState.fresh]⟩).1

/-- A beat-less tick fed to the tempo tracker for the range witness. -/
def tempoWitnessResult : BeatResult := ⟨false, false, false, false, 0, 0, 0⟩

/-- Witness for C5 at a concrete run. -/
theorem tempo_output_range_witness :
    (0 : ℚ) ∈ (runTempo TTState.fresh [(tempoWitnessResult, 5)]).1 ∧
      ((0 : ℚ) = 0 ∨ (60 ≤ (0 : ℚ) ∧ (0 : ℚ) ≤ 200)) :=
  ⟨by decide, tempo_output_range [(tempoWitnessResult, 5)] 0 (by decide)⟩

/-! ## Confidence lemmas (C7, C10) -/

/-- C10: whenever `AdvancedBeatDetector.process` reports `beat = false`, the
returned confidence is exactly `0`; a non-zero confidence can only be produced
on the tick a beat fires. -/
theorem no_beat_zero_confidence (st : BDState) (s : List ℚ) (t now : ℚ)
    (h : (AdvancedBeatDetector.process st s t now).1.beat = false) :
    (AdvancedBeatDetector.process st s t now).1.confidence = 0 := by
  unfold AdvancedBeatDetector.process at h ⊢
  simp only at h ⊢
  rw [if_neg (by simp [h])]

/-- Witness for C10 at a concrete input. -/
theorem no_beat_zero_confidence_witness :
    (AdvancedBeatDetector.process BDState.fresh [0] 0 0).1.beat = false ∧
      (AdvancedBeatDetector.process BDState.fresh [0] 0 0).1.confidence = 0 :=
  ⟨by decide, no_beat_zero_confidence BDState.fresh [0] 0 0 (by decide)⟩

/-- C7: the confidence returned by `AdvancedBeatDetector.process` always lies
in `[0, 1]`, and on a fired beat it equals
`clamp(0, 1, (energy / (avgEnergy × adaptiveThreshold) - 1) × 2)` — on a fire
the argument is strictly positive, so the source's `Math.min(1, ·)` agrees
with the spec's clamp.  The hypothesis states the (reachable) invariant that
the stored energy history holds nonnegative RMS values. -/
theorem process_confidence_clamped (st : BDState) (s : List ℚ) (t now : ℚ)
    (hbuf : ∀ x ∈ st.energyBuffer, 0 ≤ x) :
    (0 ≤ (AdvancedBeatDetector.process st s t now).1.confidence ∧
      (AdvancedBeatDetector.process st s t now).1.confidence ≤ 1) ∧
    ((AdvancedBeatDetector.process st s t now).1.beat = true →
      (AdvancedBeatDetector.process st s t now).1.confidence =
        clampQ 0 1 (((AdvancedBeatDetector.process st s t now).1.energy /
          (AdvancedBeatDetector.postAvgEnergy st s *
            AdvancedBeatDetector.postAdaptiveThreshold st s) - 1) * 2)) := by
  unfold AdvancedBeatDetector.process
  simp only
  by_cases hb :
      (decide (AdvancedBeatDetector.calculateTotalEnergy s >
          AdvancedBeatDetector.postAdaptiveThreshold st s *
            meanQ (AdvancedBeatDetector.postEnergyBuffer st s)) &&
        decide (t - st.lastBeatTime > AdvancedBeatDetector.minBeatInterval)) = true
  · rw [if_pos hb]
    simp only [Bool.and_eq_true, decide_eq_true_eq] at hb
    have hgt := hb.1
    set total := AdvancedBeatDetector.calculateTotalEnergy s with htotal
    set eb := AdvancedBeatDetector.postEnergyBuffer st s with heb
    set adaptive := AdvancedBeatDetector.postAdaptiveThreshold st s with hadaptive
    have htot_nonneg : 0 ≤ total := sqrtQ_nonneg _
    have hadaptive_pos : 0 < adaptive := by
      rw [hadaptive]
      unfold AdvancedBeatDetector.postAdaptiveThreshold
      have hv : (0 : ℚ) ≤ min 0.5 (varQ (AdvancedBeatDetector.postEnergyBuffer st s) * 2) :=
        le_min (by norm_num)
          (mul_nonneg (varQ_nonneg (AdvancedBeatDetector.postEnergyBuffer st s)) (by norm_num))
      nlinarith
    have heb_nonneg : ∀ x ∈ eb, 0 ≤ x := by
      intro x hx
      rw [heb] at hx
      rcases mem_pushCap 43 st.energyBuffer total x hx with h | h
      · exact hbuf x h
      · subst h
        exact htot_nonneg
    have htot_mem : total ∈ eb := by
      rw [heb]
      exact self_mem_pushCap 43 st.energyBuffer total (by norm_num)
    have havg_nonneg : 0 ≤ meanQ eb := meanQ_nonneg eb heb_nonneg
    have htot_pos : 0 < total := by
      rcases lt_or_eq_of_le htot_nonneg with h | h
      · exact h
      · exfalso
        rw [← h] at hgt
        nlinarith
    have havg_pos : 0 < meanQ eb := meanQ_pos_of_mem eb total htot_mem htot_pos heb_nonneg
    have hden_pos : 0 < meanQ eb * adaptive := mul_pos havg_pos hadaptive_pos
    have hratio : 1 < total / (meanQ eb * adaptive) := by
      rw [lt_div_iff₀ hden_pos]
      nlinarith
    have hvpos : 0 < (total / (meanQ eb * adaptive) - 1) * 2 := by nlinarith
    constructor
    · constructor
      · exact le_min (by norm_num) (le_of_lt hvpos)
      · exact min_le_left _ _
    · intro _
      simp only [clampQ]
      exact (max_eq_right (le_min (by norm_num) (le_of_lt hvpos))).symm
  · rw [if_neg hb]
    refine ⟨⟨le_refl 0, by norm_num⟩, ?_⟩
    intro hcontra
    exact absurd hcontra hb

/-- A beat-detector state with a (reachable-shaped) nonnegative energy
history, on which the next energetic tick fires a beat. -/
def confWitnessState : BDState := { BDState.fresh with energyBuffer := [0, 0, 0] }

/-- Witness for C7 at a concrete firing input. -/
theorem process_confidence_clamped_witness :
    (∀ x ∈ confWitnessState.energyBuffer, (0 : ℚ) ≤ x) ∧
    ((0 ≤ (AdvancedBeatDetector.process confWitnessState
          (List.replicate 4 1) 300 300).1.confidence ∧
        (AdvancedBeatDetector.process confWitnessState
          (List.replicate 4 1) 300 300).1.confidence ≤ 1) ∧
      ((AdvancedBeatDetector.process confWitnessState
          (List.replicate 4 1) 300 300).1.beat = true →
        (AdvancedBeatDetector.process confWitnessState
            (List.replicate 4 1) 300 300).1.confidence =
          clampQ 0 1 (((AdvancedBeatDetector.process confWitnessState
              (List.replicate 4 1) 300 300).1.energy /
            (AdvancedBeatDetector.postAvgEnergy confWitnessState (List.replicate 4 1) *
              AdvancedBeatDetector.postAdaptiveThreshold confWitnessState
                (List.replicate 4 1)) - 1) * 2))) :=
  ⟨by decide,
   process_confidence_clamped confWitnessState (List.replicate 4 1) 300 300 (by decide)⟩

/-- C2 (code bug): the onset flag returned by `analyze` is always `false`.
`analyze` computes `spectralFlux` first, which stores the current spectrum as
`previousSpectrum`; `detectOnset` then recomputes the flux against that
freshly stored copy, obtaining `0`, and `0 > 0.1` never holds — so the
documented comparison of the current flux against the rolling average can
never fire. -/
theorem analyze_onset_always_false (st : AnalyzerState) (fd td : List ℚ) (t : ℚ) :
    (ProfessionalAudioAnalyzer.analyze st fd td t).1.onset = false :=
  detectOnset_of_matching (ProfessionalAudioAnalyzer.calculateSpectralFlux st fd).2 fd
    (flux_sets_previous st fd)

/-! ## C1: determinism and the hidden wall clock -/

/-- Two ticks with identical spectra and timestamps; the runs below differ
only in the `performance.now()` readings taken inside the drum detectors. -/
def clockRunA : List (List ℚ × ℚ × ℚ) :=
  [(List.replicate 16 0, 10, 10), (List.replicate 16 1, 20, 300)]

def clockRunB : List (List ℚ × ℚ × ℚ) :=
  [(List.replicate 16 0, 10, 10), (List.replicate 16 1, 20, 100)]

/-- C1 counterexample: feeding two fresh `AdvancedBeatDetector` instances the
identical `(frequency, timestamp)` tick sequence produces different kick-flag
sequences when the wall-clock readings the detectors take internally differ —
the second run's reading `100` is still inside the 200 ms kick refractory
measured from the detector's initial `lastKickTime = 0`, while `300` is not.
Outputs therefore depend on hidden global state (`performance.now()`), not
only on the input tuples. -/
theorem determinism_counterexample :
    (runProcess BDState.fresh clockRunA).1.map (fun r => r.kick) ≠
      (runProcess BDState.fresh clockRunB).1.map (fun r => r.kick) := by
  decide

/-- One `process` tick depends on the wall clock only through the drum
sub-detectors: the global-beat projection of the result, and the main state
components, are identical across different clock readings. -/
theorem process_proj_clock_indep (a b : BDState) (s : List ℚ) (t nA nB : ℚ)
    (h : mainEq a b) :
    beatProj (AdvancedBeatDetector.process a s t nA).1 =
      beatProj (AdvancedBeatDetector.process b s t nB).1 ∧
    mainEq (AdvancedBeatDetector.process a s t nA).2
      (AdvancedBeatDetector.process b s t nB).2 := by
  obtain ⟨h1, h2, h3⟩ := h
  unfold beatProj mainEq AdvancedBeatDetector.process
  simp [AdvancedBeatDetector.postEnergyBuffer, AdvancedBeatDetector.postAdaptiveThreshold,
    AdvancedBeatDetector.postAvgEnergy, h1, h2, h3]

theorem runProcess_proj_clock_indep :
    ∀ (inputsA inputsB : List (List ℚ × ℚ × ℚ)) (a b : BDState), mainEq a b →
      inputsA.map (fun i => (i.1, i.2.1)) = inputsB.map (fun i => (i.1, i.2.1)) →
      (runProcess a inputsA).1.map beatProj = (runProcess b inputsB).1.map beatProj := by
  intro inputsA
  induction inputsA with
  | nil =>
      intro inputsB a b _ hsame
      cases inputsB with
      | nil => rfl
      | cons q rest => simp at hsame
  | cons p restA ih =>
      intro inputsB a b hab hsame
      cases inputsB with
      | nil => simp at hsame
      | cons q restB =>
          obtain ⟨s, t, nA⟩ := p
          obtain ⟨s', t', nB⟩ := q
          simp only [List.map_cons, List.cons.injEq, Prod.mk.injEq] at hsame
          obtain ⟨⟨hs, ht⟩, htail⟩ := hsame
          subst hs
          subst ht
          obtain ⟨hproj, hnext⟩ := process_proj_clock_indep a b s t nA nB hab
          simp only [runProcess, List.map_cons, List.cons.injEq]
          exact ⟨hproj, ih restB _ _ hnext htail⟩

/-- C1 amended: determinism holds for the global beat flag, confidence and
energies — they are a function of the `(frequency, timestamp)` tick sequence
alone — and for the full output once the internal `performance.now()`
readings are included among the inputs; the kick/snare/hihat flags (and hence
tempo, which `TempoTracker` also times with `performance.now()`) additionally
depend on those hidden readings, as the counterexample shows. -/
theorem beat_projection_clock_independent (inputsA inputsB : List (List ℚ × ℚ × ℚ))
    (hsame : inputsA.map (fun i => (i.1, i.2.1)) = inputsB.map (fun i => (i.1, i.2.1))) :
    (runProcess BDState.fresh inputsA).1.map beatProj =
      (runProcess BDState.fresh inputsB).1.map beatProj :=
  runProcess_proj_clock_indep inputsA inputsB BDState.fresh BDState.fresh
    ⟨rfl, rfl, rfl⟩ hsame

/-- Witness for the amended C1 at the two concrete clock streams. -/
theorem beat_projection_clock_independent_witness :
    clockRunA.map (fun i => (i.1, i.2.1)) = clockRunB.map (fun i => (i.1, i.2.1)) ∧
      (runProcess BDState.fresh clockRunA).1.map beatProj =
        (runProcess BDState.fresh clockRunB).1.map beatProj :=
  ⟨by decide, beat_projection_clock_independent clockRunA clockRunB (by decide)⟩

/-! ## C3: zero-length input -/

/-- C3 counterexample: on zero-length inputs, `spectralRolloff` is `1`, not
`0` — the rolloff scan exhausts the empty spectrum and returns its fallback
`1`, so the returned FeatureVector is not all-zero. -/
theorem empty_input_nonzero_rolloff :
    (ProfessionalAudioAnalyzer.analyze AnalyzerState.fresh [] [] 0).1.spectralRolloff ≠ 0 := by
  decide

/-- C3 amended: on zero-length inputs `analyze` (in this total rational
embedding) returns `0`/`false` in every field except `spectralRolloff = 1`.
The divisions by the zero length in `energy`, the band energies,
`zeroCrossingRate`, `harmonicContent`, `percussiveContent`, `loudness` and
the empty-percentile reads of `dynamicRange` are not guarded in the source —
the rational convention `x / 0 = 0` stands in for the `NaN` that JS doubles
produce there, so "returns 0 rather than NaN" does not hold of the source. -/
theorem analyze_empty_input_values :
    (ProfessionalAudioAnalyzer.analyze AnalyzerState.fresh [] [] 0).1.energy = 0 ∧
    (ProfessionalAudioAnalyzer.analyze AnalyzerState.fresh [] [] 0).1.bassEnergy = 0 ∧
    (ProfessionalAudioAnalyzer.analyze AnalyzerState.fresh [] [] 0).1.subBassEnergy = 0 ∧
    (ProfessionalAudioAnalyzer.analyze AnalyzerState.fresh [] [] 0).1.midEnergy = 0 ∧
    (ProfessionalAudioAnalyzer.analyze AnalyzerState.fresh [] [] 0).1.highMidEnergy = 0 ∧
    (ProfessionalAudioAnalyzer.analyze AnalyzerState.fresh [] [] 0).1.trebleEnergy = 0 ∧
    (ProfessionalAudioAnalyzer.analyze AnalyzerState.fresh [] [] 0).1.presenceEnergy = 0 ∧
    (ProfessionalAudioAnalyzer.analyze AnalyzerState.fresh [] [] 0).1.brillianceEnergy = 0 ∧
    (ProfessionalAudioAnalyzer.analyze AnalyzerState.fresh [] [] 0).1.spectralCentroid = 0 ∧
    (ProfessionalAudioAnalyzer.analyze AnalyzerState.fresh [] [] 0).1.spectralRolloff = 1 ∧
    (ProfessionalAudioAnalyzer.analyze AnalyzerState.fresh [] [] 0).1.spectralFlux = 0 ∧
    (ProfessionalAudioAnalyzer.analyze AnalyzerState.fresh [] [] 0).1.zeroCrossingRate = 0 ∧
    (ProfessionalAudioAnalyzer.analyze AnalyzerState.fresh [] [] 0).1.harmonicContent = 0 ∧
    (ProfessionalAudioAnalyzer.analyze AnalyzerState.fresh [] [] 0).1.percussiveContent = 0 ∧
    (ProfessionalAudioAnalyzer.analyze AnalyzerState.fresh [] [] 0).1.loudness = 0 ∧
    (ProfessionalAudioAnalyzer.analyze AnalyzerState.fresh [] [] 0).1.dynamicRange = 0 ∧
    (ProfessionalAudioAnalyzer.analyze AnalyzerState.fresh [] [] 0).1.onset = false ∧
    (ProfessionalAudioAnalyzer.analyze AnalyzerState.fresh [] [] 0).1.transient = false := by
  decide

/-! ## C6: silence short-circuit -/

/-- C6: when the tick's converted frequency data is nonempty with mean below
the `0.001` silence epsilon, `processAudioData` resets `audioFeatures` to the
all-zero vector and returns before invoking the analyzer, beat detector,
tempo tracker, rhythm analyzer or visual effects — every other component of
the visualizer state, including all history buffers, is left unchanged. -/
theorem processAudioData_silent (st : VizState) (frequencyData timeData : List ℕ)
    (now : ℚ) (hne : 0 < frequencyData.length)
    (hsilent : (frequencyData.map (fun b => (b : ℚ) / 255)).sum /
        ((frequencyData.map (fun b => (b : ℚ) / 255)).length : ℚ) < 0.001) :
    AudioVisualizer.processAudioData st frequencyData timeData now =
      { st with audioFeatures := zeroFeatures } := by
  unfold AudioVisualizer.processAudioData
  simp only
  rw [if_pos hsilent]

/-- Witness for C6 on a concrete silent tick. -/
theorem processAudioData_silent_witness :
    (0 < ([0, 0] : List ℕ).length ∧
      (([0, 0] : List ℕ).map (fun b => (b : ℚ) / 255)).sum /
        (((([0, 0] : List ℕ).map (fun b => (b : ℚ) / 255)).length : ℚ)) < 0.001) ∧
    AudioVisualizer.processAudioData VizState.fresh [0, 0] [128] 0 =
      { VizState.fresh with audioFeatures := zeroFeatures } :=
  ⟨⟨by decide, by decide⟩,
   processAudioData_silent VizState.fresh [0, 0] [128] 0 (by decide) (by decide)⟩

/-! ## C8: mismatched buffer lengths -/

/-- C8 counterexample: called on buffers of mismatched lengths (frequency
`[1]`, time `[1, -1]`), `analyze` does not reject — it proceeds and returns a
normally computed FeatureVector (energy `1` from the frequency buffer,
zero-crossing rate `1/2` from the two-sample time buffer). -/
theorem analyze_mismatched_proceeds :
    (ProfessionalAudioAnalyzer.analyze AnalyzerState.fresh [1] [1, -1] 0).1.energy = 1 ∧
      (ProfessionalAudioAnalyzer.analyze AnalyzerState.fresh
        [1] [1, -1] 0).1.zeroCrossingRate = 1 / 2 := by
  decide

/-- C8 amended: `analyze` performs no length validation at all: on mismatched
buffers it silently computes each feature from its own buffer independently
(spectral features from `frequencyData`, temporal features from `timeData`),
whereas the checked variant modelled from the spec's words rejects with the
descriptive error. -/
theorem analyze_no_length_validation (st : AnalyzerState) (fd td : List ℚ) (t : ℚ)
    (hmis : fd.length ≠ td.length) :
    analyzeChecked st fd td t =
        Except.error "mismatched array lengths between frequency and time buffers" ∧
      (ProfessionalAudioAnalyzer.analyze st fd td t).1.energy =
        ProfessionalAudioAnalyzer.calculateEnergy fd ∧
      (ProfessionalAudioAnalyzer.analyze st fd td t).1.zeroCrossingRate =
        ProfessionalAudioAnalyzer.calculateZeroCrossingRate td ∧
      (ProfessionalAudioAnalyzer.analyze st fd td t).1.transient =
        ProfessionalAudioAnalyzer.detectTransient td := by
  refine ⟨?_, rfl, rfl, rfl⟩
  unfold analyzeChecked
  rw [if_pos hmis]

/-- Witness for the amended C8 at a concrete mismatched input. -/
theorem analyze_no_length_validation_witness :
    ([(1 : ℚ)].length ≠ [(1 : ℚ), -1].length) ∧
    (analyzeChecked AnalyzerState.fresh [1] [1, -1] 0 =
        Except.error "mismatched array lengths between frequency and time buffers" ∧
      (ProfessionalAudioAnalyzer.analyze AnalyzerState.fresh [1] [1, -1] 0).1.energy =
        ProfessionalAudioAnalyzer.calculateEnergy [1] ∧
      (ProfessionalAudioAnalyzer.analyze AnalyzerState.fresh [1] [1, -1] 0).1.zeroCrossingRate =
        ProfessionalAudioAnalyzer.calculateZeroCrossingRate [1, -1] ∧
      (ProfessionalAudioAnalyzer.analyze AnalyzerState.fresh [1] [1, -1] 0).1.transient =
        ProfessionalAudioAnalyzer.detectTransient [1, -1]) :=
  ⟨by decide, analyze_no_length_validation AnalyzerState.fresh [1] [1, -1] 0 (by decide)⟩

/-! ## C9: visual pulse decay -/

theorem update_flash_decay (st : FXState) (f : AdvancedAudioFeatures)
    (h : f.beat = false) :
    (AdvancedVisualEffects.update st f).flashIntensity = st.flashIntensity * 0.85 := by
  unfold AdvancedVisualEffects.update
  simp [h]

theorem update_kick_decay (st : FXState) (f : AdvancedAudioFeatures)
    (h : f.kick = false) :
    (AdvancedVisualEffects.update st f).kickPulse = st.kickPulse * 0.8 := by
  unfold AdvancedVisualEffects.update
  simp [h]

theorem update_snare_decay (st : FXState) (f : AdvancedAudioFeatures)
    (h : f.snare = false) :
    (AdvancedVisualEffects.update st f).snarePulse = st.snarePulse * 0.7 := by
  unfold AdvancedVisualEffects.update
  simp [h]

theorem update_hihat_decay (st : FXState) (f : AdvancedAudioFeatures)
    (h : f.hihat = false) :
    (AdvancedVisualEffects.update st f).hihatPulse = st.hihatPulse * 0.6 := by
  unfold AdvancedVisualEffects.update
  simp [h]

/-- A pulse component with a multiplicative per-tick decay factor decays
geometrically over an event-free run. -/
theorem runFX_decay (g : FXState → ℚ) (flag : AdvancedAudioFeatures → Bool) (c : ℚ)
    (hstep : ∀ st f, flag f = false → g (AdvancedVisualEffects.update st f) = g st * c) :
    ∀ (fs : List AdvancedAudioFeatures) (st : FXState), (∀ f ∈ fs, flag f = false) →
      g (runFX st fs) = g st * c ^ fs.length := by
  intro fs
  induction fs with
  | nil =>
      intro st _
      simp [runFX]
  | cons f rest ih =>
      intro st hall
      have hf : flag f = false := hall f (List.mem_cons_self _ _)
      have hrest : ∀ x ∈ rest, flag x = false := fun x hx => hall x (List.mem_cons_of_mem _ hx)
      have hstep1 : runFX st (f :: rest) = runFX (AdvancedVisualEffects.update st f) rest := rfl
      rw [hstep1, ih _ hrest, hstep st f hf, List.length_cons, pow_succ]
      ring

/-- C9: if the first tick's events set a pulse to `1.0` (for the flash pulse
this needs `energy × beatConfidence ≥ 1`, since the source sets the flash to
`min(1, energy × confidence)`; the kick/snare/hihat pulses jump to `1.0`
outright) and the following `N` ticks carry no such event, the pulse after
those `N` ticks equals `decayFactor ^ N` — `0.85` for flash, `0.8` for kick,
`0.7` for snare, `0.6` for hihat — and is never below `0`. -/
theorem pulse_decay_exponential (st : FXState) (f0 : AdvancedAudioFeatures)
    (fs : List AdvancedAudioFeatures) :
    (f0.beat = true → 1 ≤ f0.energy * f0.beatConfidence → (∀ f ∈ fs, f.beat = false) →
      (runFX st (f0 :: fs)).flashIntensity = 0.85 ^ fs.length ∧
        0 ≤ (runFX st (f0 :: fs)).flashIntensity) ∧
    (f0.kick = true → (∀ f ∈ fs, f.kick = false) →
      (runFX st (f0 :: fs)).kickPulse = 0.8 ^ fs.length ∧
        0 ≤ (runFX st (f0 :: fs)).kickPulse) ∧
    (f0.snare = true → (∀ f ∈ fs, f.snare = false) →
      (runFX st (f0 :: fs)).snarePulse = 0.7 ^ fs.length ∧
        0 ≤ (runFX st (f0 :: fs)).snarePulse) ∧
    (f0.hihat = true → (∀ f ∈ fs, f.hihat = false) →
      (runFX st (f0 :: fs)).hihatPulse = 0.6 ^ fs.length ∧
        0 ≤ (runFX st (f0 :: fs)).hihatPulse) := by
  have hrun : runFX st (f0 :: fs) = runFX (AdvancedVisualEffects.update st f0) fs := rfl
  refine ⟨?_, ?_, ?_, ?_⟩
  · intro hb he hall
    have h1 : (AdvancedVisualEffects.update st f0).flashIntensity = 1 := by
      unfold AdvancedVisualEffects.update
      simp only [hb, if_true]
      exact min_eq_left he
    have h2 := runFX_decay (fun s => s.flashIntensity) (fun f => f.beat) 0.85
      update_flash_decay fs (AdvancedVisualEffects.update st f0) hall
    have h3 : (runFX st (f0 :: fs)).flashIntensity = 0.85 ^ fs.length := by
      simp only at h2
      rw [hrun, h2, h1, one_mul]
    exact ⟨h3, by rw [h3]; positivity⟩
  · intro hk hall
    have h1 : (AdvancedVisualEffects.update st f0).kickPulse = 1 := by
      unfold AdvancedVisualEffects.update
      simp [hk]
    have h2 := runFX_decay (fun s => s.kickPulse) (fun f => f.kick) 0.8
      update_kick_decay fs (AdvancedVisualEffects.update st f0) hall
    have h3 : (runFX st (f0 :: fs)).kickPulse = 0.8 ^ fs.length := by
      simp only at h2
      rw [hrun, h2, h1, one_mul]
    exact ⟨h3, by rw [h3]; positivity⟩
  · intro hs hall
    have h1 : (AdvancedVisualEffects.update st f0).snarePulse = 1 := by
      unfold AdvancedVisualEffects.update
      simp [hs]
    have h2 := runFX_decay (fun s => s.snarePulse) (fun f => f.snare) 0.7
      update_snare_decay fs (AdvancedVisualEffects.update st f0) hall
    have h3 : (runFX st (f0 :: fs)).snarePulse = 0.7 ^ fs.length := by
      simp only at h2
      rw [hrun, h2, h1, one_mul]
    exact ⟨h3, by rw [h3]; positivity⟩
  · intro hh hall
    have h1 : (AdvancedVisualEffects.update st f0).hihatPulse = 1 := by
      unfold AdvancedVisualEffects.update
      simp [hh]
    have h2 := runFX_decay (fun s => s.hihatPulse) (fun f => f.hihat) 0.6
      update_hihat_decay fs (AdvancedVisualEffects.update st f0) hall
    have h3 : (runFX st (f0 :: fs)).hihatPulse = 0.6 ^ fs.length := by
      simp only at h2
      rw [hrun, h2, h1, one_mul]
    exact ⟨h3, by rw [h3]; positivity⟩

/-- Witness for C9: one all-events tick followed by one event-free tick. -/
theorem pulse_decay_exponential_witness :
    ((runFX FXState.fresh [fWit, zeroFeatures]).flashIntensity = 0.85 ^ 1 ∧
      0 ≤ (runFX FXState.fresh [fWit, zeroFeatures]).flashIntensity) ∧
    ((runFX FXState.fresh [fWit, zeroFeatures]).kickPulse = 0.8 ^ 1 ∧
      0 ≤ (runFX FXState.fresh [fWit, zeroFeatures]).kickPulse) ∧
    ((runFX FXState.fresh [fWit, zeroFeatures]).snarePulse = 0.7 ^ 1 ∧
      0 ≤ (runFX FXState.fresh [fWit, zeroFeatures]).snarePulse) ∧
    ((runFX FXState.fresh [fWit, zeroFeatures]).hihatPulse = 0.6 ^ 1 ∧
      0 ≤ (runFX FXState.fresh [fWit, zeroFeatures]).hihatPulse) :=
  ⟨(pulse_decay_exponential FXState.fresh fWit [zeroFeatures]).1
      (by decide) (by decide) (by decide),
   (pulse_decay_exponential FXState.fresh fWit [zeroFeatures]).2.1
      (by decide) (by decide),
   (pulse_decay_exponential FXState.fresh fWit [zeroFeatures]).2.2.1
      (by decide) (by decide),
   (pulse_decay_exponential FXState.fresh fWit [zeroFeatures]).2.2.2
      (by decide) (by decide)⟩
